import Mathlib

/-!
Verification of the Teko interpreter (src/Teko/src/interpret.rs and
src/Teko/src/data_structures_impls.rs) against its specification.

Embedding conventions, used uniformly below:
* A Rust `Vec` used as a stack (the work stack `program`, the `params`
  stack of frames, and each per-name binding stack in `store`) is a Lean
  `List` whose HEAD is the `Vec`'s top (its last element): `Vec::push` is
  `cons`, `Vec::pop` takes the head, `Vec::last` is `head?`.
* A single argument-accumulation frame (one element of `params`) is kept
  in insertion order (Rust index order): appending is `++ [x]`, `Vec::last`
  is `getLast?`, and `frame[i]` is positional.
* `Vec::extend(code)` pushes the elements of `code` in order so the last
  element ends on top; with head-as-top lists this is `code.reverse ++ ·`.
* The `HashMap` `store` is an association list; only `get`/`insert`/
  `remove`/`contains_key` are used by the source, none of which depend on
  iteration order.
* Rust `panic!` / `unwrap` / `expect` / `unimplemented!` failures are
  `none` (for helpers returning `Option`) or the `panicked` outcome of the
  machine.  `println!`/`print!` output is not modelled.
* `BigInt` is `Int`.  `BigInt::parse_bytes(s, 10)` is `parse_bytes_10`.
-/

namespace Teko

/-- SourceLocation: line, column, source name (struct `Source`). -/
structure Source where
  line : Nat
  column : Nat
  source : String
deriving DecidableEq, Repr

/-- Modelled from the spec: the `Display` impl for `Source` is not among the
provided source files (only `data_structures_impls.rs` is, which does not
define it); the spec says a source location is "line, column, source name".
It is never evaluated by any claim below (all nodes involved carry `none`). -/
def formatSource (s : Source) : String :=
  s.source ++ ":" ++ toString s.line ++ ":" ++ toString s.column

/-- The native functions installed by `initialize_environment_with_standard_library`
(`Function::Builtin` payloads), one constructor per Rust `fn` item. -/
inductive BuiltinFn where
  | plus | minus | multiply | divide | geq | notFn | errorFn | headFn
  | tailFn | pairFn | sleepFn | unwindFn | evalExpose | defineInternal
deriving DecidableEq, Repr

/-- The native macros installed by the standard library (`Macro::Builtin`). -/
inductive BuiltinMacro where
  | quote | stringMacro | ifConditional | setBang | windMacro
  | defineMacro | fnMacro | moMacro
deriving DecidableEq, Repr

mutual
/-- `Sourcedata(Option<Source>, Coredata)`: a node is an optional source
location and a payload. -/
inductive Sourcedata where
  | mk : Option Source → Coredata → Sourcedata

/-- The `Coredata` tagged union (variant set as listed by the `Display`
impl in data_structures_impls.rs).  `Boolean::True/False` is `Bool`;
`Rational` and `Complex` carry no payload here because the evaluator
never inspects one (every arm that meets them is `unimplemented!`). -/
inductive Coredata where
  | Null : Coredata
  | Boolean : Bool → Coredata
  | Complex : Coredata
  | Error : Sourcedata → Coredata
  | Function : Function → Coredata
  | Integer : Int → Coredata
  | Internal : Commands → Coredata
  | Macro : Macro → Coredata
  | Pair : Sourcedata → Sourcedata → Coredata
  | Rational : Coredata
  | String : String → Coredata
  | Symbol : String → Coredata

/-- The `Commands` enum (payload of `Coredata::Internal`). -/
inductive Commands where
  | Call : Sourcedata → Commands
  | Prepare : Sourcedata → Commands
  | Parameterize : Commands
  | Deparameterize : List String → Commands
  | If : Sourcedata → Sourcedata → Commands
  | Wind : Commands
  | Evaluate : Commands
  | Empty : Commands

/-- The `Function` enum: a native primitive or a (parameter names, body) pair. -/
inductive Function where
  | Builtin : BuiltinFn → Function
  | Library : List String → List Sourcedata → Function

/-- The `Macro` enum: a native macro or a (bound name, body) pair. -/
inductive Macro where
  | Builtin : BuiltinMacro → Macro
  | Library : String → List Sourcedata → Macro
end

/-- Shorthand for `Rc::new(Sourcedata(None, c))`. -/
def sd (c : Coredata) : Sourcedata := .mk none c

def Sourcedata.src : Sourcedata → Option Source
  | .mk s _ => s

def Sourcedata.data : Sourcedata → Coredata
  | .mk _ d => d

/-- `Sourcedata::head` (data_structures_impls.rs): the head of a `Pair`,
and a fresh `Null` node on every other variant. -/
def Sourcedata.head : Sourcedata → Sourcedata
  | .mk _ (.Pair h _) => h
  | _ => .mk none .Null

/-- `Sourcedata::tail` (data_structures_impls.rs): the tail of a `Pair`,
and a fresh `Null` node on every other variant. -/
def Sourcedata.tail : Sourcedata → Sourcedata
  | .mk _ (.Pair _ t) => t
  | _ => .mk none .Null

abbrev Program := List Sourcedata

abbrev Store := List (String × List Sourcedata)

/-- `Env`: the name→binding-stack map, the argument-frame stack, and the
result register. -/
structure Env where
  store : Store
  params : List (List Sourcedata)
  result : Sourcedata

/-- `HashMap::get` on the association list. -/
def storeGet : Store → String → Option (List Sourcedata)
  | [], _ => none
  | (k', v) :: rest, k => if k' = k then some v else storeGet rest k

/-- `HashMap::insert`: replace the value at an existing key, or add the key. -/
def storeInsert : Store → String → List Sourcedata → Store
  | [], k, v => [(k, v)]
  | (k', v') :: rest, k, v =>
    if k' = k then (k, v) :: rest else (k', v') :: storeInsert rest k v

/-- `HashMap::remove`. -/
def storeRemove : Store → String → Store
  | [], _ => []
  | (k', v') :: rest, k =>
    if k' = k then storeRemove rest k else (k', v') :: storeRemove rest k

/-- `HashMap::contains_key`. -/
def storeContains (s : Store) (k : String) : Bool :=
  (storeGet s k).isSome

/-- The number of currently-live bindings of a name (its stack depth). -/
def storeDepth (s : Store) (k : String) : Nat :=
  ((storeGet s k).getD []).length

/-- `store.get_mut(k).push(v)` guarded by the source's `contains_key` check:
push onto an existing stack, or create a fresh one-element stack. -/
def storePush (store : Store) (k : String) (v : Sourcedata) : Store :=
  match storeGet store k with
  | some stack => storeInsert store k (v :: stack)
  | none => storeInsert store k [v]

/-- `pop_parameters` (interpret.rs): for each name pop one binding
(`expect` panics when the name is absent from `store` — `none` here; the
`Vec::pop` itself ignores an empty stack) and remove the entry when its
stack is left empty. -/
def pop_parameters : Store → List String → Option Store
  | store, [] => some store
  | store, arg :: rest =>
    match storeGet store arg with
    | none => none
    | some stack =>
      let stack' := stack.tail
      let store' := if stack'.isEmpty then storeRemove store arg
                    else storeInsert store arg stack'
      pop_parameters store' rest

/-- The merge-and-pop loop inside `optimize_tail_call`: walk `params`; a
name also in `content` has one binding popped from `store` (panicking —
`none` — when the entry is absent or its stack empty), every other name is
kept for the produced list. -/
def tcoPop : List String → List String → Store → Option (List String × Store)
  | [], _, store => some ([], store)
  | p :: ps, content, store =>
    if content.contains p then
      match storeGet store p with
      | none => none
      | some [] => none
      | some (_ :: vs) => tcoPop ps content (storeInsert store p vs)
    else
      match tcoPop ps content store with
      | none => none
      | some (l, store') => some (p :: l, store')

/-- `optimize_tail_call` (interpret.rs lines 40-73).  Pops the work-stack
top; a `Deparameterize(content)` marker is consumed and merged with
`params` via `tcoPop`, with the final list `to_add.extend(content)`; any
other top is pushed back and `params` is returned as-is.  Returns the
updated work stack and store together with the produced name list. -/
def optimize_tail_call (program : Program) (store : Store)
    (params : List String) : Option (Program × Store × List String) :=
  match program with
  | [] => some ([], store, params)
  | top :: rest =>
    match top.data with
    | .Internal (.Deparameterize content) =>
      match tcoPop params content store with
      | none => none
      | some (toAdd, store') => some (rest, store', toAdd ++ content)
    | _ => some (top :: rest, store, params)

/-- `collect_pair_into_vec`'s walk: heads pushed while descending the
tails, accumulator order; the source then reverses, which the
accumulator already produces. -/
def collectAux : Sourcedata → List Sourcedata → List Sourcedata
  | .mk _ (.Pair h t), acc => collectAux t (h :: acc)
  | _, acc => acc

/-- `collect_pair_into_vec` (interpret.rs): the list elements in REVERSED
order (the source builds them front-to-back and then reverses). -/
def collect_pair_into_vec (d : Sourcedata) : List Sourcedata :=
  collectAux d []

/-- The symbol-extraction loop of `collect_pair_into_vec_string`
(`panic!` — `none` — on a non-symbol element). -/
def symbolStrings : List Sourcedata → Option (List String)
  | [] => some []
  | .mk _ (.Symbol s) :: rest =>
    match symbolStrings rest with
    | some l => some (s :: l)
    | none => none
  | _ => none

/-- `collect_pair_into_vec_string` (interpret.rs): symbol texts in source
order (the reversed vector is mapped and then reversed again). -/
def collect_pair_into_vec_string (d : Sourcedata) : Option (List String) :=
  match symbolStrings (collect_pair_into_vec d) with
  | some l => some l.reverse
  | none => none

/-- Base-10 digit run with accumulator. -/
def parseDigitsAux : List Char → Nat → Option Nat
  | [], acc => some acc
  | c :: rest, acc =>
    if c.isDigit then parseDigitsAux rest (acc * 10 + (c.toNat - 48)) else none

/-- A nonempty all-digit run. -/
def parseDigits : List Char → Option Nat
  | [] => none
  | l => parseDigitsAux l 0

/-- `BigInt::parse_bytes(s.as_bytes(), 10)`: an optional sign followed by
at least one decimal digit. -/
def parse_bytes_10 (s : String) : Option Int :=
  match s.toList with
  | [] => none
  | c :: rest =>
    if c = '-' then
      match parseDigits rest with
      | some n => some (-(n : Int))
      | none => none
    else if c = '+' then
      match parseDigits rest with
      | some n => some ((n : Int))
      | none => none
    else
      match parseDigits (c :: rest) with
      | some n => some ((n : Int))
      | none => none

/-- `make_unwind`: a synthetic `Call` of the reserved `unwind` builtin. -/
def make_unwind : Sourcedata :=
  sd (.Internal (.Call (sd (.Function (.Builtin .unwindFn)))))

/-- `unwind_with_error_message`: push a one-element `params` frame holding
`Error(String(msg))` and push the synthetic unwind call. -/
def unwind_with_error_message (msg : String) (program : Program) (env : Env) :
    Program × Env :=
  (make_unwind :: program,
   { env with params := [sd (.Error (sd (.String msg)))] :: env.params })

/-- The scan loop of the `unwind` builtin: pop the work stack; tear down a
`Deparameterize` (panic — `none` — propagated from `pop_parameters`), pop
one `params` frame on `Call` (`Vec::pop` is a no-op on an empty stack),
stop at `Wind`, and discard everything else. -/
def unwindLoop : Program → Env → Option (Program × Env)
  | [], env => some ([], env)
  | top :: rest, env =>
    match top.data with
    | .Internal (.Deparameterize args) =>
      match pop_parameters env.store args with
      | none => none
      | some store' => unwindLoop rest { env with store := store' }
    | .Internal (.Call _) => unwindLoop rest { env with params := env.params.tail }
    | .Internal .Wind => some (rest, env)
    | _ => unwindLoop rest env

/-- The summation loop of `plus` (`unimplemented!` — `none` — on any
non-`Integer` argument, including `Rational` and `Complex`). -/
def sumPlus : List Sourcedata → Int → Option Int
  | [], acc => some acc
  | .mk _ (.Integer n) :: rest, acc => sumPlus rest (acc + n)
  | _, _ => none

/-- The product loop of `multiply`. -/
def productLoop : List Sourcedata → Int → Option Int
  | [], acc => some acc
  | .mk _ (.Integer n) :: rest, acc => productLoop rest (acc * n)
  | _, _ => none

/-- The subtraction loop of `minus` (`acc - each`). -/
def subLoop : List Sourcedata → Int → Option Int
  | [], acc => some acc
  | .mk _ (.Integer n) :: rest, acc => subLoop rest (acc - n)
  | _, _ => none

/-- `minus`: one argument negates, several subtract the rest from the
first, none leaves the initial sum `0`. -/
def minusRun (args : List Sourcedata) : Option Int :=
  if args.length = 1 then subLoop args 0
  else if args.length > 1 then
    match args with
    | .mk _ (.Integer n) :: rest => subLoop rest n
    | _ => none
  else some 0

/-- The division loop of `divide`; `BigInt` division truncates toward
zero (`Int.tdiv`) and panics — `none` — on a zero divisor. -/
def divLoop : List Sourcedata → Int → Option Int
  | [], acc => some acc
  | .mk _ (.Integer n) :: rest, acc =>
    if n = 0 then none else divLoop rest (Int.tdiv acc n)
  | _, _ => none

/-- `divide`: one argument divides `1` by it, several divide the first by
the rest, none is `unimplemented!` — `none`. -/
def divideRun (args : List Sourcedata) : Option Int :=
  if args.length = 1 then divLoop args 1
  else if args.length > 1 then
    match args with
    | .mk _ (.Integer n) :: rest => divLoop rest n
    | _ => none
  else none

/-- The comparison loop of `geq`: a non-increasing integer chain yields
`Boolean(True)`; the first failing comparison stops the scan with `Null`
(later elements are then never inspected); a non-`Integer` element that is
reached is `unimplemented!` — `none`. -/
def geqLoop : List Sourcedata → Option Int → Option Coredata
  | [], _ => some (.Boolean true)
  | .mk _ (.Integer n) :: rest, none => geqLoop rest (some n)
  | .mk _ (.Integer n) :: rest, some prev =>
    if prev ≥ n then geqLoop rest (some n) else some .Null
  | _, _ => none

/-- `Function::Builtin` dispatch: each native mutates `(program, env)` or
panics (`none`), exactly as the corresponding Rust `fn` in interpret.rs. -/
def runBF : BuiltinFn → Program → Env → Option (Program × Env)
  | .plus, program, env =>
    match env.params.head? with
    | none => none
    | some args =>
      match sumPlus args 0 with
      | some s => some (program, { env with result := sd (.Integer s) })
      | none => none
  | .minus, program, env =>
    match env.params.head? with
    | none => none
    | some args =>
      match minusRun args with
      | some s => some (program, { env with result := sd (.Integer s) })
      | none => none
  | .multiply, program, env =>
    match env.params.head? with
    | none => none
    | some args =>
      match productLoop args 1 with
      | some s => some (program, { env with result := sd (.Integer s) })
      | none => none
  | .divide, program, env =>
    match env.params.head? with
    | none => none
    | some args =>
      match divideRun args with
      | some s => some (program, { env with result := sd (.Integer s) })
      | none => none
  | .geq, program, env =>
    match env.params.head? with
    | none => none
    | some args =>
      match geqLoop args none with
      | some c => some (program, { env with result := sd c })
      | none => none
  | .notFn, program, env =>
    match env.params.head? with
    | none => none
    | some args =>
      if args.length ≠ 1 then some (make_unwind :: program, env)
      else
        match args.head? with
        | some (.mk _ .Null) =>
          some (program, { env with result := sd (.Symbol "true") })
        | some _ => some (program, { env with result := sd .Null })
        | none => none
  | .errorFn, program, env =>
    match env.params.head? with
    | none => none
    | some args =>
      if args.length ≥ 2 then
        some (make_unwind :: program,
          { env with result := sd (.Error (sd (.String
              "Arity mismatch; Too many arguments to error"))) })
      else
        match args.head? with
        | some a => some (program, { env with result := sd (.Error a) })
        | none => some (program, { env with result := sd (.Error (sd .Null)) })
  | .headFn, program, env =>
    match env.params.head? with
    | none => none
    | some args =>
      if args.length ≠ 1 then none
      else
        match args.head? with
        | some a => some (program, { env with result := a.head })
        | none => none
  | .tailFn, program, env =>
    match env.params.head? with
    | none => none
    | some args =>
      if args.length ≠ 1 then none
      else
        match args.head? with
        | some a => some (program, { env with result := a.tail })
        | none => none
  | .pairFn, program, env =>
    match env.params.head? with
    | none => none
    | some args =>
      match args with
      | [a, b] => some (program, { env with result := sd (.Pair a b) })
      | _ => none
  | .sleepFn, program, env =>
    match env.params.head? with
    | none => none
    | some args =>
      match args.head? with
      | none => none
      | some (.mk _ (.Integer n)) =>
        if n < 0 then none else some (program, env)
      | some _ => some (program, env)
  | .unwindFn, program, env =>
    match env.params.head? with
    | none => none
    | some frame =>
      match frame.getLast? with
      | none => none
      | some err => unwindLoop program { env with result := err }
  | .evalExpose, program, env =>
    match env.params.head? with
    | none => some (unwind_with_error_message "eval: parameter stack empty" program env)
    | some args =>
      if args.length ≠ 1 then
        some (unwind_with_error_message "eval: arity mismatch" program env)
      else
        match args.head? with
        | some arg => some (arg :: program, env)
        | none => some (unwind_with_error_message "eval: arity mismatch" program env)
  | .defineInternal, program, env =>
    match env.params.head? with
    | none => none
    | some args =>
      match args.head? with
      | none => none
      | some (.mk _ (.String s)) =>
        match args.get? 1 with
        | none => none
        | some v => some (program, { env with store := storeInsert env.store s [v] })
      | some _ => none

/-- `Macro::Builtin` dispatch; each native is invoked from the `Prepare`
arm with `env.result` already set to the unevaluated argument list. -/
def runBM : BuiltinMacro → Program → Env → Option (Program × Env)
  | .quote, program, env => some (program, env)
  | .stringMacro, program, env =>
    match collect_pair_into_vec_string env.result with
    | none => none
    | some strs =>
      some (program, { env with result := sd (.String (String.intercalate " " strs)) })
  | .ifConditional, program, env =>
    let args := env.result
    some (args.head ::
            sd (.Internal (.If (args.tail.head) (args.tail.tail.head))) :: program,
          env)
  | .setBang, _, _ => none
  | .windMacro, program, env =>
    let code := collect_pair_into_vec env.result
    some (code.reverse ++ sd (.Internal .Wind) :: program, env)
  | .defineMacro, program, env =>
    let arguments := env.result
    match arguments.tail.data with
    | .Pair heado _ =>
      match arguments.head.data with
      | .Symbol s =>
        some (sd (.String s) :: sd (.Internal .Parameterize) :: heado ::
                sd (.Internal .Parameterize) ::
                sd (.Internal (.Call (sd (.Function (.Builtin .defineInternal))))) ::
                program,
              { env with params := [] :: env.params })
      | _ => none
    | _ => none
  | .fnMacro, program, env =>
    let args := env.result
    match collect_pair_into_vec_string args.head with
    | none => none
    | some ps =>
      some (program,
        { env with result := sd (.Function (.Library ps (collect_pair_into_vec args.tail))) })
  | .moMacro, program, env =>
    let args := env.result
    match args.head.data with
    | .Symbol s =>
      some (program,
        { env with result := sd (.Macro (.Library s (collect_pair_into_vec args.tail))) })
    | _ => none

/-- Push each parameter/argument pair onto the parameter's binding stack
(`env.store` updates of the `Function::Library` call arm); the pairing by
`zip` mirrors `arguments[counter]` under the arity guard. -/
def bindArgs : Store → List (String × Sourcedata) → Store
  | store, [] => store
  | store, (p, a) :: rest => bindArgs (storePush store p a) rest

/-- One machine transition, or a panic. -/
inductive StepRes where
  | ok : Program → Env → StepRes
  | panicked : StepRes

/-- One iteration of the `eval` loop of src/Teko/src/interpret.rs
(lines 643-814), dispatching on the popped node `top`; `rest` is the work
stack below it. -/
def step (top : Sourcedata) (rest : Program) (env : Env) : StepRes :=
  match top with
  | .mk _ (.Pair h t) =>
    .ok (h :: .mk t.src (.Internal (.Prepare t)) :: rest) env
  | .mk _ (.Internal .Wind) => .ok rest env
  | .mk _ (.Internal .Parameterize) =>
    match env.params with
    | last :: ps => .ok rest { env with params := (last ++ [env.result]) :: ps }
    | [] =>
      let pe := unwind_with_error_message
        "Error during parameterization: the parameter stack is nonexistent" rest env
      .ok pe.1 pe.2
  | .mk _ (.Internal (.Prepare arguments)) =>
    match env.result.data with
    | .Function _ =>
      let callee := env.result
      let p1 : Program := .mk callee.src (.Internal (.Call callee)) :: rest
      let p2 := (collect_pair_into_vec arguments).foldl
        (fun p a => a :: sd (.Internal .Parameterize) :: p) p1
      .ok p2 { env with params := [] :: env.params }
    | .Macro (.Builtin m) =>
      match runBM m rest { env with result := arguments } with
      | some pe => .ok pe.1 pe.2
      | none => .panicked
    | .Macro (.Library bound code) =>
      let p1 : Program := sd (.Internal .Evaluate) :: rest
      match optimize_tail_call p1 env.store [bound] with
      | none => .panicked
      | some (p2, store2, command) =>
        let store3 :=
          match storeGet store2 bound with
          | some stack => storeInsert store2 bound (arguments :: stack)
          | none => storeInsert store2 bound [arguments]
        .ok (code.reverse ++ sd (.Internal (.Deparameterize command)) :: p2)
          { env with store := store3 }
    | _ =>
      let pe := unwind_with_error_message
        "Error during prepare routine: element not callable" rest env
      .ok pe.1 pe.2
  | .mk _ (.Internal .Evaluate) => .ok (env.result :: rest) env
  | .mk _ (.Internal (.Call statement)) =>
    match statement.data with
    | .Function (.Builtin f) =>
      match runBF f rest env with
      | none => .panicked
      | some (p', e') =>
        match e'.params with
        | _ :: ps => .ok p' { e' with params := ps }
        | [] =>
          let pe := unwind_with_error_message
            "during builtin function call: parameter stack not poppable" p' e'
          .ok pe.1 pe.2
    | .Function (.Library parameters transfer) =>
      match env.params with
      | [] =>
        let pe := unwind_with_error_message
          "during library function call: parameter stack empty" rest env
        .ok pe.1 pe.2
      | arguments :: ps =>
        let env1 := { env with params := ps }
        if arguments.length ≠ parameters.length then
          let pe := unwind_with_error_message
            "during library function call: arity mismatch" rest env1
          .ok pe.1 pe.2
        else
          match optimize_tail_call rest env1.store parameters with
          | none => .panicked
          | some (p2, store2, merged) =>
            .ok (transfer.reverse ++ sd (.Internal (.Deparameterize merged)) :: p2)
              { env1 with store := bindArgs store2 (parameters.zip arguments) }
    | _ =>
      let pe := unwind_with_error_message
        "calling: Element not recognized as callable" rest env
      .ok pe.1 pe.2
  | .mk _ (.Internal (.If first second)) =>
    match env.result.data with
    | .Null => .ok (second :: rest) env
    | _ => .ok (first :: rest) env
  | .mk _ (.Internal (.Deparameterize args)) =>
    match pop_parameters env.store args with
    | none => .panicked
    | some store' => .ok rest { env with store := store' }
  | .mk src (.Symbol s) =>
    match parse_bytes_10 s with
    | some n => .ok rest { env with result := .mk src (.Integer n) }
    | none =>
      match storeGet env.store s with
      | some stack =>
        match stack.head? with
        | some v => .ok rest { env with result := v }
        | none =>
          let msg :=
            match src with
            | some so =>
              formatSource so ++ " => variable `" ++ s ++ "' does exist but its stack is empty"
            | none => "_ variable `" ++ s ++ "' does exist but its stack is empty"
          let pe := unwind_with_error_message msg rest env
          .ok pe.1 pe.2
      | none =>
        let msg :=
          match src with
          | some so => formatSource so ++ " => variable `" ++ s ++ "' does not exist"
          | none => "variable `" ++ s ++ "' does not exist"
        let pe := unwind_with_error_message msg rest env
        .ok pe.1 pe.2
  | _ => .ok rest { env with result := top }

/-- The outcome of a bounded run of the machine. -/
inductive RunRes where
  | finished : Env → RunRes
  | panicked : RunRes
  | fuelOut : Program → Env → RunRes

/-- Drive the `eval` loop for at most `fuel` iterations.  The work stack
holds its top at the list head, so a source-order program list is consumed
front first, exactly as the source's `reverse` + `Vec::pop` does. -/
def run : Nat → Program → Env → RunRes
  | _, [], env => .finished env
  | 0, p, env => .fuelOut p env
  | Nat.succ n, top :: rest, env =>
    match step top rest env with
    | .ok p' e' => run n p' e'
    | .panicked => .panicked

/-- `initialize_environment_with_standard_library`: the builtin registry
(entries in source order), an empty `params` stack and a `Null` result. -/
def initialize_environment_with_standard_library : Env :=
  { store :=
      [("+", [sd (.Function (.Builtin .plus))]),
       ("-", [sd (.Function (.Builtin .minus))]),
       ("*", [sd (.Function (.Builtin .multiply))]),
       ("/", [sd (.Function (.Builtin .divide))]),
       (">=", [sd (.Function (.Builtin .geq))]),
       ("not", [sd (.Function (.Builtin .notFn))]),
       ("error", [sd (.Function (.Builtin .errorFn))]),
       ("head", [sd (.Function (.Builtin .headFn))]),
       ("tail", [sd (.Function (.Builtin .tailFn))]),
       ("pair", [sd (.Function (.Builtin .pairFn))]),
       ("sleep", [sd (.Function (.Builtin .sleepFn))]),
       ("unwind", [sd (.Function (.Builtin .unwindFn))]),
       ("eval", [sd (.Function (.Builtin .evalExpose))]),
       ("'", [sd (.Macro (.Builtin .quote))]),
       ("\"", [sd (.Macro (.Builtin .stringMacro))]),
       ("if", [sd (.Macro (.Builtin .ifConditional))]),
       ("set!", [sd (.Macro (.Builtin .setBang))]),
       ("wind", [sd (.Macro (.Builtin .windMacro))]),
       ("define", [sd (.Macro (.Builtin .defineMacro))]),
       ("fn", [sd (.Macro (.Builtin .fnMacro))]),
       ("mo", [sd (.Macro (.Builtin .moMacro))])],
    params := [],
    result := sd .Null }

/-- Embeds the `If` arm of the OLDER evaluator revision
(src/src/interpret.rs lines 130-136): that revision pushes the `else`
branch exactly when the result register holds `Boolean(False)` and the
`then` branch on every other value.  (The rest of that revision depends on
builtins/utilities modules that are not among the provided files; the arm
itself is self-contained.) -/
def ifBranchOld (result first second : Sourcedata) : Sourcedata :=
  match result.data with
  | .Boolean false => second
  | _ => first

def symNode (s : String) : Sourcedata := sd (.Symbol s)

def intNode (n : Int) : Sourcedata := sd (.Integer n)

/-- Build a `Null`-terminated cons-list node, as the parser produces for a
parenthesised form. -/
def listNode : List Sourcedata → Sourcedata
  | [] => sd .Null
  | x :: xs => sd (.Pair x (listNode xs))

/-- The final result register of a finished run. -/
def RunRes.resultOf : RunRes → Option Sourcedata
  | .finished e => some e.result
  | _ => none

/-- Whether a node is the `Wind` barrier marker. -/
def isWind (x : Sourcedata) : Bool :=
  match x.data with
  | .Internal .Wind => true
  | _ => false

/-- One popped item of the unwind scan, described as the specification
words it: a `Deparameterize(names)` has its bindings torn down, a `Call`
pops one `params` frame, every other item is discarded (the `Wind` stop is
handled by the driver, not here). -/
def unwindScanStep (env : Env) (x : Sourcedata) : Option Env :=
  match x.data with
  | .Internal (.Deparameterize args) =>
    match pop_parameters env.store args with
    | some st => some { env with store := st }
    | none => none
  | .Internal (.Call _) => some { env with params := env.params.tail }
  | _ => some env

/-- The unwind scan over a (Wind-free) stretch of the work stack, folding
`unwindScanStep`. -/
def unwindScan : Program → Env → Option Env
  | [], env => some env
  | x :: rest, env =>
    match unwindScanStep env x with
    | some env' => unwindScan rest env'
    | none => none

/-! Concrete material for the tail-call claim: the library function
`loop`, bound as by `(define loop (fn (n) (if (>= 1 n) n (loop (- n 1)))))`,
whose final action is a call to itself in tail position, run in a minimal
environment holding only the bindings it uses. -/

def geqFn : Sourcedata := sd (.Function (.Builtin .geq))

def minusFn : Sourcedata := sd (.Function (.Builtin .minus))

def ifMacroNode : Sourcedata := sd (.Macro (.Builtin .ifConditional))

def condExpr : Sourcedata := listNode [symNode ">=", symNode "1", symNode "n"]

def minusExpr : Sourcedata := listNode [symNode "-", symNode "n", symNode "1"]

def recExpr : Sourcedata := listNode [symNode "loop", minusExpr]

def Lbody : Sourcedata := listNode [symNode "if", condExpr, symNode "n", recExpr]

def Lfn : Sourcedata := sd (.Function (.Library ["n"] [Lbody]))

def loopBase : Store :=
  [(">=", [geqFn]), ("-", [minusFn]), ("if", [ifMacroNode]), ("loop", [Lfn])]

def callNode : Sourcedata := sd (.Internal (.Call Lfn))

def depN : Sourcedata := sd (.Internal (.Deparameterize ["n"]))

def callG : Sourcedata := sd (.Internal (.Call geqFn))

def ifN : Sourcedata := sd (.Internal (.If (symNode "n") recExpr))

/-- The configuration at the start of every `loop` iteration: the work
stack holds exactly the pending tail call and the single merged
`Deparameterize(["n"])` marker, the one open `params` frame holds the
iteration argument `k`, and the binding stack of the parameter `n` has
depth one (holding the previous iteration's value `w`). -/
def Aenv (k : Int) (w : Sourcedata) (r : Sourcedata) : Env :=
  { store := loopBase ++ [("n", [w])], params := [[intNode k]], result := r }

/-- The configuration reached just before the `geq` builtin call of an
iteration. -/
def Eg (k : Int) : Env :=
  { store := loopBase ++ [("n", [intNode k])], params := [[intNode 1, intNode k]],
    result := intNode k }

/-- The configuration just after the `geq` builtin call of a
non-final iteration. -/
def Ei (k : Int) : Env :=
  { store := loopBase ++ [("n", [intNode k])], params := [], result := sd .Null }

/-- An environment whose `store` has an entry for `foo` with an EMPTY
binding stack (the `EmptyBinding` diagnostic case). -/
def emptyBindingEnv : Env :=
  { initialize_environment_with_standard_library with
    store := initialize_environment_with_standard_library.store ++ [("foo", [])] }

/-- The error node manufactured by `unwind_with_error_message` for a
library-call arity mismatch. -/
def arityErrorNode : Sourcedata :=
  sd (.Error (sd (.String "during library function call: arity mismatch")))

/-- The error node manufactured when a `Parameterize` marker meets an
empty `params` stack. -/
def paramErrorNode : Sourcedata :=
  sd (.Error (sd (.String
    "Error during parameterization: the parameter stack is nonexistent")))

/-- An arbitrary user error payload used to exercise the unwind scan. -/
def boomNode : Sourcedata := sd (.Error (sd (.String "boom")))


set_option maxRecDepth 40000

lemma run_nil (f : Nat) (env : Env) : run f [] env = .finished env := by
  cases f <;> rfl

lemma isWind_eq_true {x : Sourcedata} (h : isWind x = true) :
    x.data = .Internal .Wind := by
  obtain ⟨xsrc, d⟩ := x
  cases d <;> try (cases h)
  rename_i c
  cases c <;> first | rfl | (cases h)

lemma unwindScanStep_result {env : Env} {x : Sourcedata} {env' : Env}
    (h : unwindScanStep env x = some env') : env'.result = env.result := by
  unfold unwindScanStep at h
  split at h
  · split at h
    · cases h; rfl
    · cases h
  · cases h; rfl
  · cases h; rfl

lemma unwindScan_result : ∀ (pre : Program) (env env2 : Env),
    unwindScan pre env = some env2 → env2.result = env.result := by
  intro pre
  induction pre with
  | nil =>
    intro env env2 h
    simp only [unwindScan] at h
    cases h; rfl
  | cons x rest ih =>
    intro env env2 h
    simp only [unwindScan] at h
    cases hs : unwindScanStep env x <;> rw [hs] at h
    · cases h
    · rename_i env1
      exact (ih env1 env2 h).trans (unwindScanStep_result hs)

lemma unwindLoop_eq (x : Sourcedata) (rest : Program) (env : Env) :
    unwindLoop (x :: rest) env =
      if isWind x then some (rest, env)
      else
        match unwindScanStep env x with
        | some env' => unwindLoop rest env'
        | none => none := by
  obtain ⟨xsrc, d⟩ := x
  cases d <;> try rfl
  case Internal c =>
    cases c <;> try rfl
    case Deparameterize args =>
      simp only [unwindLoop, unwindScanStep, isWind, Sourcedata.data]
      cases hp : pop_parameters env.store args <;> simp [hp]

lemma unwindLoop_no_wind : ∀ (pre : Program) (env env2 : Env),
    (∀ x ∈ pre, isWind x = false) → unwindScan pre env = some env2 →
    unwindLoop pre env = some ([], env2) := by
  intro pre
  induction pre with
  | nil =>
    intro env env2 _ h
    simp only [unwindScan] at h
    cases h; rfl
  | cons x rest ih =>
    intro env env2 hw h
    simp only [unwindScan] at h
    rw [unwindLoop_eq, hw x (by simp)]
    simp only [Bool.false_eq_true, if_false]
    cases hs : unwindScanStep env x <;> rw [hs] at h
    · cases h
    · rename_i env1
      exact ih env1 env2 (fun y hy => hw y (by simp [hy])) h

lemma unwindLoop_wind : ∀ (pre : Program) (w : Sourcedata) (rest : Program) (env env2 : Env),
    (∀ x ∈ pre, isWind x = false) → isWind w = true →
    unwindScan pre env = some env2 →
    unwindLoop (pre ++ w :: rest) env = some (rest, env2) := by
  intro pre
  induction pre with
  | nil =>
    intro w rest env env2 _ hwind h
    simp only [unwindScan] at h
    cases h
    rw [List.nil_append, unwindLoop_eq, hwind, if_pos rfl]
  | cons x pre0 ih =>
    intro w rest env env2 hw hwind h
    simp only [unwindScan] at h
    rw [List.cons_append, unwindLoop_eq, hw x (by simp)]
    simp only [Bool.false_eq_true, if_false]
    cases hs : unwindScanStep env x <;> rw [hs] at h
    · cases h
    · rename_i env1
      exact ih w rest env1 env2 (fun y hy => hw y (by simp [hy])) hwind h

lemma run_cons_ok {top : Sourcedata} {rest : Program} {env : Env}
    {p' : Program} {e' : Env} (f : Nat) (h : step top rest env = .ok p' e') :
    run (f + 1) (top :: rest) env = run f p' e' := by
  simp only [run, h]

/-- C1: the `unwind` primitive sets the result register to the error value it
was invoked with (the last element of the top `params` frame) and then pops the
work stack item by item — tearing down `Deparameterize(names)` markers, popping
one `params` frame per `Call` marker, discarding everything else — stopping at
the first `Wind` marker (leaving the stack below it); if the stack holds no
`Wind`, the stack is drained to empty, so the machine loop terminates at once
with the error value as the final result and no remaining node executes.  The
per-item actions are captured by `unwindScanStep`/`unwindScan`, written from
the claim's wording, against which the implementation loop is proved. -/
theorem C1_unwind_protocol :
    ∀ (st : Store) (frame : List Sourcedata) (ps : List (List Sourcedata))
      (re err : Sourcedata),
    frame.getLast? = some err →
    (∀ (pre : Program) (env2 : Env),
        (∀ x ∈ pre, isWind x = false) →
        unwindScan pre { store := st, params := frame :: ps, result := err } = some env2 →
        runBF .unwindFn pre { store := st, params := frame :: ps, result := re }
            = some ([], env2)
        ∧ env2.result = err
        ∧ (env2.params ≠ [] →
            ∀ f, run (f + 1) (make_unwind :: pre)
                { store := st, params := frame :: ps, result := re }
              = .finished { env2 with params := env2.params.tail }))
    ∧ (∀ (pre : Program) (w : Sourcedata) (rest : Program) (env2 : Env),
        (∀ x ∈ pre, isWind x = false) → isWind w = true →
        unwindScan pre { store := st, params := frame :: ps, result := err } = some env2 →
        runBF .unwindFn (pre ++ w :: rest)
            { store := st, params := frame :: ps, result := re }
          = some (rest, env2)
        ∧ env2.result = err) := by
  intro st frame ps re err hlast
  have hbf0 : ∀ (pre : Program),
      runBF .unwindFn pre { store := st, params := frame :: ps, result := re }
        = unwindLoop pre { store := st, params := frame :: ps, result := err } := by
    intro pre
    simp only [runBF, List.head?]
    rw [hlast]
  constructor
  · intro pre env2 hw hscan
    have h1 : runBF .unwindFn pre { store := st, params := frame :: ps, result := re }
        = some ([], env2) := by
      rw [hbf0]
      exact unwindLoop_no_wind pre _ env2 hw hscan
    refine ⟨h1, unwindScan_result pre _ env2 hscan, ?_⟩
    intro hne f
    have hstep : step make_unwind pre { store := st, params := frame :: ps, result := re }
        = .ok [] { env2 with params := env2.params.tail } := by
      simp only [step, make_unwind, sd, Sourcedata.data]
      rw [h1]
      cases hq : env2.params with
      | nil => exact absurd hq hne
      | cons q qs => simp [hq]
    rw [run_cons_ok f hstep]
    exact run_nil f _
  · intro pre w rest env2 hw hwind hscan
    exact ⟨by rw [hbf0]; exact unwindLoop_wind pre w rest _ env2 hw hwind hscan,
           unwindScan_result pre _ env2 hscan⟩

theorem C1_witness :
    runBF .unwindFn [sd (.Internal (.Deparameterize ["x"])), intNode 7]
        { store := [("x", [intNode 9])], params := [[boomNode]], result := sd .Null }
      = some ([], { store := [], params := [[boomNode]], result := boomNode })
    ∧ run 3 (make_unwind :: [sd (.Internal (.Deparameterize ["x"])), intNode 7])
        { store := [("x", [intNode 9])], params := [[boomNode]], result := sd .Null }
      = .finished { store := [], params := [], result := boomNode }
    ∧ runBF .unwindFn
        ([sd (.Internal (.Deparameterize ["x"])), intNode 7]
          ++ sd (.Internal .Wind) :: [intNode 3])
        { store := [("x", [intNode 9])], params := [[boomNode]], result := sd .Null }
      = some ([intNode 3], { store := [], params := [[boomNode]], result := boomNode }) := by
  obtain ⟨hA, hB⟩ :=
    C1_unwind_protocol [("x", [intNode 9])] [boomNode] [] (sd .Null) boomNode rfl
  obtain ⟨h1, -, h3⟩ :=
    hA [sd (.Internal (.Deparameterize ["x"])), intNode 7]
      { store := [], params := [[boomNode]], result := boomNode } (by decide) rfl
  exact ⟨h1, h3 (by simp) 2,
    (hB [sd (.Internal (.Deparameterize ["x"])), intNode 7] (sd (.Internal .Wind))
      [intNode 3] { store := [], params := [[boomNode]], result := boomNode }
      (by decide) rfl rfl).1⟩

/-- C4: calling a library function whose declared parameter count differs from
the number of evaluated arguments in the popped `params` frame makes evaluation
finish (no panic) with the result register holding the `Error` node whose
string is the arity-mismatch message, provided the remaining stack holds no
`Wind` barrier and its unwind scan succeeds with a poppable frame left. -/
theorem C4_arity_mismatch :
    ∀ (parameters : List String) (body frame : List Sourcedata)
      (ps : List (List Sourcedata)) (rest : Program) (store : Store)
      (res : Sourcedata) (env2 : Env),
    frame.length ≠ parameters.length →
    (∀ x ∈ rest, isWind x = false) →
    unwindScan rest
        { store := store, params := [arityErrorNode] :: ps, result := arityErrorNode }
      = some env2 →
    env2.params ≠ [] →
    ∀ f, run (f + 2)
        (sd (.Internal (.Call (sd (.Function (.Library parameters body))))) :: rest)
        { store := store, params := frame :: ps, result := res }
      = .finished { env2 with params := env2.params.tail }
    ∧ env2.result = arityErrorNode := by
  intro parameters body frame ps rest store res env2 hlen hw hscan hne f
  have hstep1 :
      step (sd (.Internal (.Call (sd (.Function (.Library parameters body)))))) rest
        { store := store, params := frame :: ps, result := res }
      = .ok (make_unwind :: rest)
          { store := store, params := [arityErrorNode] :: ps, result := res } := by
    simp only [step, sd, Sourcedata.data]
    rw [if_pos hlen]
    rfl
  have h1 : runBF .unwindFn rest
      { store := store, params := [arityErrorNode] :: ps, result := res }
      = some ([], env2) := by
    simp only [runBF, List.head?, List.getLast?]
    exact unwindLoop_no_wind rest _ env2 hw hscan
  have hstep2 : step make_unwind rest
      { store := store, params := [arityErrorNode] :: ps, result := res }
      = .ok [] { env2 with params := env2.params.tail } := by
    simp only [step, make_unwind, sd, Sourcedata.data]
    rw [h1]
    cases hq : env2.params with
    | nil => exact absurd hq hne
    | cons q qs => simp [hq]
  refine ⟨?_, unwindScan_result rest _ env2 hscan⟩
  rw [run_cons_ok (f + 1) hstep1, run_cons_ok f hstep2]
  exact run_nil f _

theorem C4_witness :
    (1 : Nat) ≠ 2
    ∧ run 2
        (sd (.Internal (.Call (sd (.Function (.Library ["a", "b"] [symNode "a"]))))) :: [])
        { store := [], params := [[intNode 1]], result := sd .Null }
      = .finished { store := [], params := [], result := arityErrorNode }
    ∧ arityErrorNode = sd (.Error (sd (.String "during library function call: arity mismatch"))) := by
  have h := C4_arity_mismatch ["a", "b"] [symNode "a"] [intNode 1] [] [] [] (sd .Null)
    { store := [], params := [[arityErrorNode]], result := arityErrorNode }
    (by decide) (by simp) rfl (by simp) 0
  exact ⟨by decide, h.1, rfl⟩

lemma storeGet_insert_self : ∀ (s : Store) (k : String) (v : List Sourcedata),
    storeGet (storeInsert s k v) k = some v := by
  intro s k v
  induction s with
  | nil => simp [storeInsert, storeGet]
  | cons e rest ih =>
    obtain ⟨k', v'⟩ := e
    by_cases h : k' = k
    · simp [storeInsert, h, storeGet]
    · simp [storeInsert, h, storeGet, ih]

lemma storeGet_insert_ne : ∀ (s : Store) (k q : String) (v : List Sourcedata),
    q ≠ k → storeGet (storeInsert s k v) q = storeGet s q := by
  intro s k q v hne
  induction s with
  | nil =>
    simp only [storeInsert, storeGet]
    rw [if_neg (fun h => hne h.symm)]
  | cons e rest ih =>
    obtain ⟨k', v'⟩ := e
    by_cases h : k' = k
    · subst h
      simp only [storeInsert, if_pos rfl, storeGet]
      rw [if_neg (fun h => hne h.symm), if_neg (fun h => hne h.symm)]
    · simp only [storeInsert, if_neg h, storeGet]
      by_cases h2 : k' = q
      · simp [h2]
      · simp [h2, ih]

lemma storeDepth_pos : ∀ (s : Store) (p : String), 1 ≤ storeDepth s p →
    ∃ v vs, storeGet s p = some (v :: vs) := by
  intro s p h
  unfold storeDepth at h
  cases hg : storeGet s p with
  | none => rw [hg] at h; simp at h
  | some stack =>
    rw [hg] at h
    cases stack with
    | nil => simp at h
    | cons v vs => exact ⟨v, vs, rfl⟩

lemma storeDepth_insert_ne (s : Store) (k q : String) (v : List Sourcedata)
    (hne : q ≠ k) : storeDepth (storeInsert s k v) q = storeDepth s q := by
  unfold storeDepth
  rw [storeGet_insert_ne s k q v hne]

lemma tcoPop_spec : ∀ (l content : List String) (store : Store),
    l.Nodup → (∀ p ∈ l, p ∈ content → 1 ≤ storeDepth store p) →
    ∃ store',
      tcoPop l content store
        = some (l.filter (fun p => !(content.contains p)), store')
      ∧ (∀ p ∈ l, p ∈ content → storeDepth store' p = storeDepth store p - 1)
      ∧ (∀ q, ¬(q ∈ l ∧ q ∈ content) → storeGet store' q = storeGet store q) := by
  intro l
  induction l with
  | nil =>
    intro content store _ _
    exact ⟨store, rfl, by simp, fun q _ => rfl⟩
  | cons p ps ih =>
    intro content store hnd hdep
    have hndps : ps.Nodup := (List.nodup_cons.mp hnd).2
    have hpnotin : p ∉ ps := (List.nodup_cons.mp hnd).1
    by_cases hc : p ∈ content
    · have hcb : content.contains p = true := List.elem_eq_true_of_mem hc
      obtain ⟨v, vs, hget⟩ := storeDepth_pos store p (hdep p (by simp) hc)
      have hdep2 : ∀ q ∈ ps, q ∈ content → 1 ≤ storeDepth (storeInsert store p vs) q := by
        intro q hq hqc
        have hne : q ≠ p := fun he => hpnotin (he ▸ hq)
        rw [storeDepth_insert_ne store p q vs hne]
        exact hdep q (by simp [hq]) hqc
      obtain ⟨store', htco, hd, ho⟩ := ih content (storeInsert store p vs) hndps hdep2
      refine ⟨store', ?_, ?_, ?_⟩
      · simp [tcoPop, hcb, hget, htco, List.filter_cons, hc]
      · intro q hq hqc
        rcases List.mem_cons.mp hq with hqp | hqps
        · subst hqp
          unfold storeDepth
          rw [ho q (fun hh => hpnotin hh.1), storeGet_insert_self, hget]
          simp
        · have hne : q ≠ p := fun he => hpnotin (he ▸ hqps)
          rw [hd q hqps hqc, storeDepth_insert_ne store p q vs hne]
      · intro q hnq
        have hne : q ≠ p := by
          intro he
          exact hnq ⟨by simp [he], he ▸ hc⟩
        have h1 : storeGet store' q = storeGet (storeInsert store p vs) q := by
          refine ho q ?_
          intro hh
          exact hnq ⟨List.mem_cons_of_mem p hh.1, hh.2⟩
        rw [h1, storeGet_insert_ne store p q vs hne]
    · have hcb : content.contains p = false := by
        cases hcc : content.contains p
        · rfl
        · exact absurd (List.mem_of_elem_eq_true hcc) hc
      obtain ⟨store', htco, hd, ho⟩ :=
        ih content store hndps (fun q hq => hdep q (by simp [hq]))
      refine ⟨store', ?_, ?_, ?_⟩
      · simp [tcoPop, hcb, htco, List.filter_cons, hc]
      · intro q hq hqc
        rcases List.mem_cons.mp hq with hqp | hqps
        · exact absurd (hqp ▸ hqc) hc
        · exact hd q hqps hqc
      · intro q hnq
        refine ho q ?_
        intro hh
        exact hnq ⟨List.mem_cons_of_mem p hh.1, hh.2⟩

/-- C3: `optimize_tail_call` consumes a top-of-stack `Deparameterize(existing)`
marker, pops exactly one `store` binding for each (distinct) name of
`new_names` that also occurs in `existing`, drops those names from the produced
list, and returns the union (kept new names in order, then all of `existing`);
all other bindings are untouched.  When the top is not such a marker, or the
stack is empty, the stack and `new_names` are returned unchanged. -/
theorem C3_optimize_tail_call_spec :
    (∀ (existing new : List String) (rest : Program) (esrc : Option Source)
       (store : Store),
      new.Nodup →
      (∀ p ∈ new, p ∈ existing → 1 ≤ storeDepth store p) →
      ∃ store',
        optimize_tail_call
            (.mk esrc (.Internal (.Deparameterize existing)) :: rest) store new
          = some (rest, store',
              new.filter (fun p => !(existing.contains p)) ++ existing)
        ∧ (∀ p ∈ new, p ∈ existing →
            storeDepth store' p = storeDepth store p - 1)
        ∧ (∀ q, ¬(q ∈ new ∧ q ∈ existing) → storeGet store' q = storeGet store q))
    ∧ (∀ (top : Sourcedata) (rest : Program) (store : Store) (new : List String),
      (∀ names, top.data ≠ .Internal (.Deparameterize names)) →
      optimize_tail_call (top :: rest) store new = some (top :: rest, store, new))
    ∧ (∀ (store : Store) (new : List String),
      optimize_tail_call [] store new = some ([], store, new)) := by
  refine ⟨?_, ?_, fun store new => rfl⟩
  · intro existing new rest esrc store hnd hdep
    obtain ⟨store', htco, hd, ho⟩ := tcoPop_spec new existing store hnd hdep
    refine ⟨store', ?_, hd, ho⟩
    simp only [optimize_tail_call, Sourcedata.data]
    rw [htco]
  · intro top rest store new h
    obtain ⟨tsrc, d⟩ := top
    cases d <;> try rfl
    rename_i c
    cases c <;> try rfl
    rename_i names
    exact absurd rfl (h names)

theorem C3_witness :
    optimize_tail_call
        [sd (.Internal (.Deparameterize ["x", "y"]))]
        [("x", [intNode 1, intNode 2]), ("y", [intNode 3])] ["x", "z"]
      = some ([], [("x", [intNode 2]), ("y", [intNode 3])], ["z", "x", "y"])
    ∧ storeDepth [("x", [intNode 2]), ("y", [intNode 3])] "x"
      = storeDepth [("x", [intNode 1, intNode 2]), ("y", [intNode 3])] "x" - 1 := by
  obtain ⟨store', h1, h2, h3⟩ :=
    C3_optimize_tail_call_spec.1 ["x", "y"] ["x", "z"] [] none
      [("x", [intNode 1, intNode 2]), ("y", [intNode 3])]
      (by decide) (by decide)
  have h0 : optimize_tail_call
      [sd (.Internal (.Deparameterize ["x", "y"]))]
      [("x", [intNode 1, intNode 2]), ("y", [intNode 3])] ["x", "z"]
      = some ([], [("x", [intNode 2]), ("y", [intNode 3])], ["z", "x", "y"]) := rfl
  have hinj := h1.symm.trans h0
  injection hinj with hpair
  injection hpair with hrest hrest2
  injection hrest2 with hstore hnames
  refine ⟨h0, ?_⟩
  rw [← hstore]
  exact h2 "x" (by decide) (by decide)

lemma loop_iter (k : Int) (hk : 2 ≤ k) (w r : Sourcedata) (f : Nat) :
    run (f + 25) [callNode, depN] (Aenv k w r)
      = run f [callNode, depN] (Aenv (k - 1) (intNode k) (intNode (k - 1))) := by
  have hg : geqLoop [intNode 1, intNode k] none = some .Null := by
    show (if (1 : Int) ≥ k then geqLoop [] (some k) else some Coredata.Null)
      = some Coredata.Null
    rw [if_neg (by omega)]
  have h1 : run (f + 25) [callNode, depN] (Aenv k w r)
      = run (f + 14) [callG, ifN, depN] (Eg k) := rfl
  have hstep : step callG [ifN, depN] (Eg k) = .ok [ifN, depN] (Ei k) := by
    simp only [step, callG, geqFn, sd, Sourcedata.data, runBF, Eg, List.head?, hg, Ei]
  have h2 : run (f + 14) [callG, ifN, depN] (Eg k) = run (f + 13) [ifN, depN] (Ei k) :=
    run_cons_ok (f + 13) hstep
  have h3 : run (f + 13) [ifN, depN] (Ei k)
      = run f [callNode, depN] (Aenv (k - 1) (intNode k) (intNode (k - 1))) := rfl
  rw [h1, h2, h3]

lemma loop_iterN : ∀ (N : Nat) (f : Nat) (w r : Sourcedata),
    run (f + 25 * (N + 1)) [callNode, depN] (Aenv ((N : Int) + 2) w r)
      = run f [callNode, depN] (Aenv 1 (intNode 2) (intNode 1)) := by
  intro N
  induction N with
  | zero =>
    intro f w r
    have h := loop_iter 2 (by norm_num) w r f
    norm_num at h ⊢
    exact h
  | succ N ih =>
    intro f w r
    have harith : f + 25 * (N + 1 + 1) = (f + 25 * (N + 1)) + 25 := by ring
    have hcast : ((N + 1 : Nat) : Int) + 2 = (N : Int) + 3 := by push_cast; ring
    rw [harith, hcast]
    have h := loop_iter ((N : Int) + 3) (by omega) w r (f + 25 * (N + 1))
    rw [show (N : Int) + 3 - 1 = (N : Int) + 2 from by ring] at h
    rw [h]
    exact ih f (intNode ((N : Int) + 3)) (intNode ((N : Int) + 2))

lemma loop_final :
    run 15 [callNode, depN] (Aenv 1 (intNode 2) (intNode 1))
      = .finished { store := loopBase, params := [], result := intNode 1 } := rfl

lemma storePush_depth_self (s : Store) (k : String) (v : Sourcedata) :
    storeDepth (storePush s k v) k = storeDepth s k + 1 := by
  unfold storePush
  cases hg : storeGet s k with
  | none =>
    unfold storeDepth
    rw [storeGet_insert_self, hg]
    rfl
  | some stack =>
    unfold storeDepth
    rw [storeGet_insert_self, hg]
    rfl

lemma storePush_get_ne (s : Store) (k q : String) (v : Sourcedata) (h : q ≠ k) :
    storeGet (storePush s k v) q = storeGet s q := by
  unfold storePush
  cases storeGet s k <;> rw [storeGet_insert_ne _ _ _ _ h]

lemma bindArgs_depth : ∀ (l : List (String × Sourcedata)) (store : Store) (name : String),
    storeDepth (bindArgs store l) name
      = storeDepth store name + (l.map Prod.fst).count name := by
  intro l
  induction l with
  | nil =>
    intro store name
    simp [bindArgs]
  | cons e rest ih =>
    obtain ⟨k, a⟩ := e
    intro store name
    simp only [bindArgs, List.map_cons]
    rw [ih]
    by_cases h : name = k
    · subst h
      rw [storePush_depth_self]
      simp [List.count_cons]
      omega
    · have h1 : storeDepth (storePush store k a) name = storeDepth store name := by
        unfold storeDepth
        rw [storePush_get_ne store k name a h]
      rw [h1]
      have h2 : (k :: rest.map Prod.fst).count name = (rest.map Prod.fst).count name := by
        simp [List.count_cons, h]
      omega

/-- C2: tail-call iteration runs in constant space.  First conjunct: one full
iteration of the self-tail-recursive library function `loop` (25 machine
steps, any iteration count `k ≥ 2`) returns the machine to a configuration
with the IDENTICAL two-element work stack and with the binding-stack depth of
the shared parameter `n` again exactly 1 — its pre-call depth.  Second
conjunct: for EVERY iteration bound `N`, the whole `N+1`-iteration run
terminates within linear fuel and restores the store to `loopBase` (the depth
of `n` back to 0), so neither the work stack nor any binding stack grows with
`N`.  Third conjunct: generically, executing a library `Call` whose work-stack
top is the pending `Deparameterize` of the same (distinct) parameter names —
the tail-call situation — preserves the `store` depth of EVERY name. -/
theorem C2_tail_call_space :
    (∀ (k : Int), 2 ≤ k → ∀ (w r : Sourcedata) (f : Nat),
      run (f + 25) [callNode, depN] (Aenv k w r)
        = run f [callNode, depN] (Aenv (k - 1) (intNode k) (intNode (k - 1)))
      ∧ storeDepth (Aenv k w r).store "n" = 1
      ∧ storeDepth (Aenv (k - 1) (intNode k) (intNode (k - 1))).store "n" = 1)
    ∧ (∀ (N : Nat) (w r : Sourcedata),
      run (15 + 25 * (N + 1)) [callNode, depN] (Aenv ((N : Int) + 2) w r)
        = .finished { store := loopBase, params := [], result := intNode 1 }
      ∧ storeDepth loopBase "n" = 0)
    ∧ (∀ (parameters : List String) (body frame : List Sourcedata)
        (ps : List (List Sourcedata)) (rest : Program) (store : Store)
        (res : Sourcedata),
      frame.length = parameters.length →
      parameters.Nodup →
      (∀ p ∈ parameters, 1 ≤ storeDepth store p) →
      ∃ store',
        step (sd (.Internal (.Call (sd (.Function (.Library parameters body))))))
            (sd (.Internal (.Deparameterize parameters)) :: rest)
            { store := store, params := frame :: ps, result := res }
          = .ok (body.reverse ++ sd (.Internal (.Deparameterize parameters)) :: rest)
              { store := store', params := ps, result := res }
        ∧ ∀ name, storeDepth store' name = storeDepth store name) := by
  refine ⟨?_, ?_, ?_⟩
  · intro k hk w r f
    exact ⟨loop_iter k hk w r f, rfl, rfl⟩
  · intro N w r
    exact ⟨(loop_iterN N 15 w r).trans loop_final, rfl⟩
  · intro parameters body frame ps rest store res hlen hnd hdep
    obtain ⟨store2, htco, hd, ho⟩ :=
      tcoPop_spec parameters parameters store hnd (fun p hp _ => hdep p hp)
    have hfilter : parameters.filter (fun p => !(parameters.contains p)) = [] := by
      rw [List.filter_eq_nil_iff]
      intro a ha
      simp [ha]
    have hoc : optimize_tail_call
        (Sourcedata.mk none (.Internal (.Deparameterize parameters)) :: rest)
          store parameters
        = some (rest, store2, parameters) := by
      simp only [optimize_tail_call, Sourcedata.data]
      rw [htco, hfilter]
      rfl
    refine ⟨bindArgs store2 (parameters.zip frame), ?_, ?_⟩
    · simp only [step, sd, Sourcedata.data]
      rw [if_neg (fun hne => hne hlen), hoc]
    · intro name
      rw [bindArgs_depth, List.map_fst_zip parameters frame (le_of_eq hlen.symm)]
      by_cases hmem : name ∈ parameters
      · have hcount : parameters.count name = 1 :=
          List.count_eq_one_of_mem hnd hmem
        have hge := hdep name hmem
        rw [hcount, hd name hmem hmem]
        omega
      · have hcount : parameters.count name = 0 :=
          List.count_eq_zero_of_not_mem hmem
        have hsame : storeDepth store2 name = storeDepth store name := by
          unfold storeDepth
          rw [ho name (fun hh => hmem hh.1)]
        rw [hcount, hsame]
        omega

theorem C2_witness :
    ((2 : Int) ≤ 3
    ∧ run 25 [callNode, depN] (Aenv 3 (intNode 9) (sd .Null))
      = run 0 [callNode, depN] (Aenv 2 (intNode 3) (intNode 2)))
    ∧ run 40 [callNode, depN] (Aenv 2 (intNode 7) (sd .Null))
      = .finished { store := loopBase, params := [], result := intNode 1 }
    ∧ storeDepth [("a", [intNode 5])] "a" = storeDepth [("a", [intNode 4])] "a" := by
  refine ⟨⟨by norm_num, ?_⟩, ?_, ?_⟩
  · exact (C2_tail_call_space.1 3 (by norm_num) (intNode 9) (sd .Null) 0).1
  · exact (C2_tail_call_space.2.1 0 (intNode 7) (sd .Null)).1
  · obtain ⟨store', hstep, hdepth⟩ :=
      C2_tail_call_space.2.2 ["a"] [symNode "a"] [intNode 5] [] [] [("a", [intNode 4])]
        (sd .Null) rfl (by decide) (by decide)
    have h0 : step (sd (.Internal (.Call (sd (.Function (.Library ["a"] [symNode "a"]))))))
        (sd (.Internal (.Deparameterize ["a"])) :: [])
        { store := [("a", [intNode 4])], params := [intNode 5] :: [], result := sd .Null }
      = .ok ([symNode "a"].reverse ++ sd (.Internal (.Deparameterize ["a"])) :: [])
          { store := [("a", [intNode 5])], params := [], result := sd .Null } := rfl
    have hinj := hstep.symm.trans h0
    injection hinj with hp he
    injection he with hs hp2 hr2
    rw [← hs]
    exact hdepth "a"

/-- C5: evaluating `(foo)` with `foo` never bound terminates without panic in
an `Error` result whose message contains "does not exist", while a name whose
`store` entry exists with an empty binding stack produces a distinct
message. -/
theorem C5_unbound_symbol_error :
    (run 4 [listNode [symNode "foo"]] initialize_environment_with_standard_library).resultOf
      = some (sd (.Error (sd (.String "variable `foo' does not exist"))))
    ∧ (run 4 [listNode [symNode "foo"]] emptyBindingEnv).resultOf
      = some (sd (.Error (sd (.String "_ variable `foo' does exist but its stack is empty"))))
    ∧ "variable `foo' " ++ "does not exist" ++ "" = "variable `foo' does not exist"
    ∧ ("variable `foo' does not exist" : String)
        ≠ "_ variable `foo' does exist but its stack is empty" :=
  ⟨rfl, rfl, rfl, by decide⟩

/-- C6: a popped `Symbol(text)` whose text parses as a base-10 integer always
sets the result register to that integer — regardless of the contents of
`store`, hence even when a variable of that exact name is bound — and the
`store` lookup happens only when the text does not parse as an integer. -/
theorem C6_integer_literal_priority :
    ∀ (s : String) (n : Int) (src : Option Source) (rest : Program)
      (store : Store) (ps : List (List Sourcedata)) (res : Sourcedata),
    (parse_bytes_10 s = some n →
      step (.mk src (.Symbol s)) rest { store := store, params := ps, result := res }
        = .ok rest { store := store, params := ps, result := .mk src (.Integer n) })
    ∧ (parse_bytes_10 s = none →
      ∀ (v : Sourcedata) (stack : List Sourcedata),
        storeGet store s = some (v :: stack) →
        step (.mk src (.Symbol s)) rest { store := store, params := ps, result := res }
          = .ok rest { store := store, params := ps, result := v }) := by
  intro s n src rest store ps res
  refine ⟨fun h => ?_, fun h v stack hg => ?_⟩
  · simp only [step, h]
  · simp only [step, h, hg, List.head?]

theorem C6_witness :
    parse_bytes_10 "42" = some 42
    ∧ step (.mk none (.Symbol "42")) []
        { store := [("42", [intNode 99])], params := [], result := sd .Null }
      = .ok [] { store := [("42", [intNode 99])], params := [], result := .mk none (.Integer 42) } :=
  ⟨rfl, (C6_integer_literal_priority "42" 42 none [] [("42", [intNode 99])] [] (sd .Null)).1 rfl⟩

/-- C7: the two evaluator revisions disagree on `If`: the src/Teko revision
pushes the else-branch exactly when the result register holds `Null` (first
conjunct characterises `step`), while the src/src revision pushes the
else-branch exactly when it holds `Boolean(False)` (second conjunct
characterises `ifBranchOld`, the embedding of that revision's arm); on the
result value `Boolean(False)` the two revisions select different branches
(remaining conjuncts). -/
theorem C7_if_falsy_divergence :
    (∀ (first second : Sourcedata) (rest : Program) (env : Env),
      step (sd (.Internal (.If first second))) rest env
        = .ok ((match env.result.data with
                | .Null => second
                | _ => first) :: rest) env)
    ∧ (∀ (r first second : Sourcedata),
      ifBranchOld r first second
        = match r.data with
          | .Boolean false => second
          | _ => first)
    ∧ step (sd (.Internal (.If (intNode 1) (intNode 2)))) []
          { store := [], params := [], result := sd (.Boolean false) }
        = .ok [intNode 1] { store := [], params := [], result := sd (.Boolean false) }
    ∧ ifBranchOld (sd (.Boolean false)) (intNode 1) (intNode 2) = intNode 2
    ∧ intNode 1 ≠ intNode 2 := by
  refine ⟨?_, ?_, rfl, rfl, ?_⟩
  · intro first second rest env
    obtain ⟨st, ps, r⟩ := env
    obtain ⟨rsrc, d⟩ := r
    cases d <;> rfl
  · intro r first second
    obtain ⟨rsrc, d⟩ := r
    cases d <;> rfl
  · intro h
    have h2 := congrArg Sourcedata.data h
    simp only [intNode, sd, Sourcedata.data] at h2
    cases h2

/-- C8: `head`/`tail` applied to `Pair(h, t)` return `h` and `t` unchanged,
both accessors of `Null` are `Null`, and the node built by the `pair` builtin
from a two-argument frame round-trips through `head`/`tail`. -/
theorem C8_pair_roundtrip :
    ∀ (src : Option Source) (h t a b : Sourcedata) (program : Program)
      (store : Store) (ps : List (List Sourcedata)) (res : Sourcedata),
    (Sourcedata.mk src (.Pair h t)).head = h
    ∧ (Sourcedata.mk src (.Pair h t)).tail = t
    ∧ (Sourcedata.mk src .Null).head = sd .Null
    ∧ (Sourcedata.mk src .Null).tail = sd .Null
    ∧ runBF .pairFn program { store := store, params := [a, b] :: ps, result := res }
        = some (program, { store := store, params := [a, b] :: ps, result := sd (.Pair a b) })
    ∧ (sd (.Pair a b)).head = a ∧ (sd (.Pair a b)).tail = b := by
  intros
  exact ⟨rfl, rfl, rfl, rfl, rfl, rfl, rfl⟩

/-- C9 counterexample: executing a `Parameterize` marker with an empty `params`
stack does NOT abort evaluation: the first conjunct shows the step converts
the condition into an `Error` node pushed through the ordinary unwind channel
(a synthetic `unwind` call), and the second shows a surrounding `Wind` barrier
catches it — the program continues past the barrier and finishes normally with
result `5`, refuting the claim that this condition is fatal. -/
theorem C9_counterexample :
    step (sd (.Internal .Parameterize)) [sd (.Internal .Wind), intNode 5]
        { store := [], params := [], result := sd .Null }
      = .ok (make_unwind :: [sd (.Internal .Wind), intNode 5])
          { store := [], params := [[paramErrorNode]], result := sd .Null }
    ∧ run 4 [sd (.Internal .Parameterize), sd (.Internal .Wind), intNode 5]
        { store := [], params := [], result := sd .Null }
      = .finished { store := [], params := [], result := intNode 5 } :=
  ⟨rfl, rfl⟩

/-- C9 amended: executing a `Parameterize` marker while the `params` stack is
empty converts the condition into `Error("Error during parameterization: the
parameter stack is nonexistent")` routed through the recoverable unwind
channel (a synthetic call to the `unwind` primitive with that error as its
argument frame), which a surrounding `Wind` barrier catches like any other
error; evaluation is not aborted. -/
theorem C9_amended_thm :
    ∀ (rest : Program) (store : Store) (res : Sourcedata),
    step (sd (.Internal .Parameterize)) rest { store := store, params := [], result := res }
      = .ok (make_unwind :: rest)
          { store := store, params := [[paramErrorNode]], result := res } := by
  intros
  rfl

/-- C10: the standard-library registry exposes the reserved `unwind` primitive
as a user-callable function named "unwind", and evaluating `(unwind)` with
zero arguments panics on the unwrap of the empty argument frame instead of
producing an `Error` result. -/
theorem C10_unwind_zero_args_panics :
    storeGet initialize_environment_with_standard_library.store "unwind"
      = some [sd (.Function (.Builtin .unwindFn))]
    ∧ run 4 [listNode [symNode "unwind"]] initialize_environment_with_standard_library
      = .panicked :=
  ⟨rfl, rfl⟩

end Teko
